import Mathlib

/-!
Verification of the PicoClaw agent orchestration core of the
OpenClaw MGS Codec Dashboard (repository smouj/pizarra-agentes).

The repository ships the documentation of the agent core
(PICOCLAW_INTEGRATION.md, backend/picoclaw_agent/README.md), the
installation scripts and the React dashboard (frontend/src/App.js and a
newer revision embedded in update.sh); the Python modules
backend/picoclaw_agent/{agent,tools,providers}.py and backend/server.py
themselves are not part of the source tree.  Where a claim depends on
those missing modules, the corresponding definition below is modelled
from the specification (spec.md) and is marked as such in its doc
comment.  Definitions taken from source files present in the tree cite
the file they embed.
-/

namespace PicoClaw

/-! ## Workspace filesystem and path confinement (file tools) -/

/-- Modelled from the spec: the Workspace of one agent instance
(backend/picoclaw_agent/tools.py is missing from the tree).  A workspace
is a finite map from normalized relative paths (lists of path segments)
to file contents; earlier entries shadow later ones, so insertion at the
head implements overwriting. -/
abbrev FS : Type := List (List String × String)

/-- Lookup of a normalized path in the workspace map. -/
def fsLookup : FS → List String → Option String
  | [], _ => none
  | (q, c) :: rest, p => if q = p then some c else fsLookup rest p

/-- Overwrite (or create) the file at a normalized path. -/
def fsInsert (fs : FS) (p : List String) (c : String) : FS :=
  (p, c) :: fs

/-- Modelled from the spec: resolution of a relative path against the
Workspace root (tools.py is missing).  Segments are processed left to
right over a stack of already-resolved segments; "." and empty segments
are dropped, ".." pops one segment and fails (resolves outside the
root) when the stack is empty.  `none` means the path escapes the
Workspace root. -/
def normSegs : List String → List String → Option (List String)
  | stack, [] => some stack.reverse
  | stack, seg :: rest =>
    if seg = "." ∨ seg = "" then normSegs stack rest
    else if seg = ".." then
      match stack with
      | [] => none
      | _ :: stack' => normSegs stack' rest
    else normSegs (seg :: stack) rest

/-- Resolve a tool-supplied relative path; `none` when it escapes the
Workspace root after normalization. -/
def resolvePath (p : List String) : Option (List String) :=
  normSegs [] p

/-- Outcome of a file-tool invocation. -/
inductive FileResult where
  | ok (text : String)
  | accessDenied
  | notFound
deriving DecidableEq, Repr

/-- Modelled from the spec: the read_file tool (tools.py is missing).
Resolves the path, denies access outside the Workspace root, otherwise
returns the file content. -/
def read_file (fs : FS) (p : List String) : FileResult :=
  match resolvePath p with
  | none => .accessDenied
  | some q =>
    match fsLookup fs q with
    | some c => .ok c
    | none => .notFound

/-- Modelled from the spec: the write_file tool (tools.py is missing).
Resolves the path, denies access outside the Workspace root (leaving the
filesystem unchanged), otherwise overwrites the file. -/
def write_file (fs : FS) (p : List String) (c : String) : FileResult × FS :=
  match resolvePath p with
  | none => (.accessDenied, fs)
  | some q => (.ok "File written", fsInsert fs q c)

/-- Modelled from the spec: the list_files tool (tools.py is missing).
Resolves the directory path, denies access outside the Workspace root,
otherwise enumerates the entries under that directory. -/
def list_files (fs : FS) (p : List String) : FileResult :=
  match resolvePath p with
  | none => .accessDenied
  | some q =>
    .ok (String.intercalate "\n"
      ((fs.filter (fun e => q.isPrefixOf e.1)).map
        (fun e => String.intercalate "/" e.1)))

/-- Modelled from the spec: the fixed workspace-relative location of the
MemoryStore file used by the memory tool
(memory/MEMORY.md, per PICOCLAW_INTEGRATION.md). -/
def memoryPath : List String := ["memory", "MEMORY.md"]

/-! ## MemoryStore (memory tool) -/

/-- Modelled from the spec: the MemoryStore (tools.py is missing) — an
append-only log of entries inside the Workspace, readable in full,
writable only by appending. -/
abbrev MemoryStore : Type := List String

/-- Modelled from the spec: memory append adds a new entry at the end,
never truncating or rewriting prior content. -/
def memAppend (m : MemoryStore) (x : String) : MemoryStore :=
  m ++ [x]

/-- Modelled from the spec: memory read returns the full MemoryStore
content. -/
def memRead (m : MemoryStore) : MemoryStore := m

/-! ## Shell tool deny-list -/

/-- The deny-listed destructive command patterns, from
backend/picoclaw_agent/README.md ("Blocked Commands"): recursive delete,
disk formatting, shutdown/reboot, raw disk writes, filesystem creation,
fork-bomb signature. -/
def DANGEROUS_PATTERNS : List String :=
  ["rm -rf", "format", "shutdown", "reboot", "dd if=", "mkfs",
   ":()\x7b :|:& \x7d;:"]

/-- `leadMatch pat s` holds when `pat` matches the leading characters of
`s`. -/
def leadMatch : List Char → List Char → Bool
  | [], _ => true
  | _ :: _, [] => false
  | a :: ps, b :: ss => a = b && leadMatch ps ss

/-- `subOccurs pat s` holds when `pat` occurs as a contiguous substring
of `s`. -/
def subOccurs (pat : List Char) : List Char → Bool
  | [] => leadMatch pat []
  | b :: ss => leadMatch pat (b :: ss) || subOccurs pat ss

/-- ASCII lowercasing of one character (the deny-list patterns and the
command strings they guard against are ASCII). -/
def lowerChar (c : Char) : Char :=
  if 'A' ≤ c ∧ c ≤ 'Z' then Char.ofNat (c.toNat + 32) else c

/-- ASCII lowercasing of a character list. -/
def lowerList (cs : List Char) : List Char := cs.map lowerChar

/-- Modelled from the spec: the deny-list check of the shell tool
(tools.py is missing) — the command string is checked case-insensitively
for each deny-listed pattern as a substring. -/
def isDangerous (cmd : String) : Bool :=
  DANGEROUS_PATTERNS.any
    (fun pat => subOccurs (lowerList pat.toList) (lowerList cmd.toList))

/-- Result of submitting a command to the shell tool: either the command
was blocked before any process was created, or a child process was
spawned for it. -/
inductive ShellResult where
  | dangerousCommandBlocked
  | spawned (command : String)
deriving DecidableEq, Repr

/-- Modelled from the spec: the shell tool's pre-spawn gate (tools.py is
missing).  A deny-list match returns DangerousCommandBlocked and the
process is never spawned. -/
def shell (cmd : String) : ShellResult :=
  if isDangerous cmd then .dangerousCommandBlocked else .spawned cmd

/-! ## Agentic loop controller, tool results, usage accounting -/

/-- Usage counters reported/accumulated per chat invocation. -/
structure Usage where
  prompt_tokens : Nat
  completion_tokens : Nat
  total_tokens : Nat
deriving DecidableEq, Repr

/-- A model-requested tool invocation: name plus argument map. -/
structure ToolCall where
  name : String
  arguments : List (String × String)
deriving DecidableEq, Repr

/-- The execution outcome corresponding to one ToolCall: tool name, the
arguments used, and the result text or error description. -/
structure ToolResult where
  tool : String
  args : List (String × String)
  result : String
deriving DecidableEq, Repr

/-- One normalized provider response: text, optional tool calls, usage. -/
structure ProviderResponse where
  text : String
  tool_calls : List ToolCall
  usage : Usage
deriving DecidableEq, Repr

/-- Outcome of executing one tool: success text or one of the typed
execution failures (none of which is fatal to the loop). -/
inductive ExecOutcome where
  | ok (text : String)
  | validationError (msg : String)
  | accessDenied (msg : String)
  | dangerousCommandBlocked (msg : String)
  | timeout (msg : String)
deriving DecidableEq, Repr

/-- The text recorded in a ToolResult for an execution outcome: the
result text on success, the error description on failure. -/
def outcomeText : ExecOutcome → String
  | .ok t => t
  | .validationError m => "ValidationError: " ++ m
  | .accessDenied m => "Access denied: " ++ m
  | .dangerousCommandBlocked m => "Dangerous command blocked: " ++ m
  | .timeout m => "Timeout: " ++ m

/-- Modelled from the spec: sequential execution of the tool calls of
one provider response (agent.py is missing).  Every ToolCall yields
exactly one ToolResult, in order, success or failure. -/
def execTools (exec : ToolCall → ExecOutcome) (calls : List ToolCall) :
    List ToolResult :=
  calls.map (fun tc => ⟨tc.name, tc.arguments, outcomeText (exec tc)⟩)

/-- The final result of one chat() invocation. -/
structure ChatResult where
  content : String
  usage : Usage
  per_call_usage : List Usage
  tool_results : List ToolResult
  iterations : Nat
  aborted : Bool
deriving Repr

/-- The usage accountant's accumulation step: prompt and completion
counters add the per-call fields, and the running total adds the exact
per-call sum prompt + completion (never an independent estimate). -/
def addUsage (u v : Usage) : Usage :=
  ⟨u.prompt_tokens + v.prompt_tokens,
   u.completion_tokens + v.completion_tokens,
   u.total_tokens + (v.prompt_tokens + v.completion_tokens)⟩

/-- Modelled from the spec: the agentic loop controller (agent.py is
missing).  The provider is an oracle from the provider-call index to the
normalized response; `fuel` is the remaining iteration budget, `i` the
number of provider calls made so far, `acc`/`us` the accumulated usage
and the per-call usage trace, `results` the accumulated tool results and
`lastText` the best available partial text.  A response without tool
calls ends the loop in DONE; exhausting the budget ends it in ABORTED
with the partial text and the explicit iteration-limit flag. -/
def loopGo (provider : Nat → ProviderResponse) (exec : ToolCall → ExecOutcome) :
    Nat → Nat → Usage → List Usage → List ToolResult → String → ChatResult
  | 0, i, acc, us, results, lastText =>
    { content := lastText, usage := acc, per_call_usage := us,
      tool_results := results, iterations := i, aborted := true }
  | fuel + 1, i, acc, us, results, _ =>
    let resp := provider i
    let acc' := addUsage acc resp.usage
    let us' := us ++ [resp.usage]
    if resp.tool_calls = [] then
      { content := resp.text, usage := acc', per_call_usage := us',
        tool_results := results, iterations := i + 1, aborted := false }
    else
      loopGo provider exec fuel (i + 1) acc' us'
        (results ++ execTools exec resp.tool_calls) resp.text

/-- Default iteration budget of the loop (AgentConfig.max_iterations). -/
def default_max_iterations : Nat := 10

/-- Modelled from the spec: one chat() invocation of the agent
(agent.py is missing), starting from zeroed usage counters with the full
iteration budget. -/
def chat (provider : Nat → ProviderResponse) (exec : ToolCall → ExecOutcome)
    (max_iterations : Nat) : ChatResult :=
  loopGo provider exec max_iterations 0 ⟨0, 0, 0⟩ [] [] ""

/-- Running total of the accounted tokens after the first `k` provider
calls of a chat invocation with per-call usage trace `us`. -/
def runningTotal (us : List Usage) (k : Nat) : Nat :=
  ((us.take k).map (fun u => u.prompt_tokens + u.completion_tokens)).sum

/-! ## Context builder -/

/-- Immutable per-invocation agent configuration. -/
structure AgentConfig where
  provider_kind : String
  model : String
  workspace_root : String
  max_iterations : Nat
  enabled_tools : List String
deriving DecidableEq, Repr

/-- The Workspace contents the context builder reads: optional bootstrap
override documents (IDENTITY.md, SOUL.md, USER.md, AGENTS.md) and the
memory excerpt. -/
structure WorkspaceView where
  identity_file : Option String
  soul_file : Option String
  user_file : Option String
  agents_file : Option String
  memory : List String
deriving DecidableEq, Repr

/-- Modelled from the spec: the agent identity block of the system
prompt (agent.py is missing); an IDENTITY.md bootstrap file overrides
the default block verbatim. -/
def identityBlock (cfg : AgentConfig) (ws : WorkspaceView) : String :=
  match ws.identity_file with
  | some s => s
  | none => "# Agent Identity\nPicoClaw agent (" ++ cfg.provider_kind ++
      ", model " ++ cfg.model ++ ")"

/-- Modelled from the spec: the timestamp / runtime-facts block of the
system prompt (agent.py is missing). -/
def timeBlock (cfg : AgentConfig) (now : Nat) : String :=
  "# Runtime\nCurrent time: " ++ toString now ++
    "\nWorkspace: " ++ cfg.workspace_root

/-- Modelled from the spec: the tool catalog block for the enabled tools
(agent.py is missing). -/
def toolCatalogBlock (cfg : AgentConfig) : String :=
  "# Tools\n" ++ String.intercalate "\n" cfg.enabled_tools

/-- Modelled from the spec: the memory excerpt block (agent.py is
missing). -/
def memoryBlock (ws : WorkspaceView) : String :=
  "# Memory\n" ++ String.intercalate "\n" ws.memory

/-- Modelled from the spec: the bootstrap override block assembled from
the personality / user-preference / multi-agent-coordination documents
present in the Workspace, each overriding its default (empty) block
verbatim (agent.py is missing). -/
def overridesBlock (ws : WorkspaceView) : String :=
  (ws.soul_file.getD "") ++ (ws.user_file.getD "") ++ (ws.agents_file.getD "")

/-- The system-prompt blocks in their fixed assembly order: identity,
timestamp/runtime facts, tool catalog, memory excerpt, overrides. -/
def contextBlocks (cfg : AgentConfig) (ws : WorkspaceView) (now : Nat) :
    List String :=
  [identityBlock cfg ws, timeBlock cfg now, toolCatalogBlock cfg,
   memoryBlock ws, overridesBlock ws]

/-- Modelled from the spec: the context builder (agent.py is missing) —
a pure function of AgentConfig, Workspace contents and current time
producing the system prompt string. -/
def build_context (cfg : AgentConfig) (ws : WorkspaceView) (now : Nat) :
    String :=
  String.intercalate "\n\n" (contextBlocks cfg ws now)

/-! ## Credential parsing and the dashboard token form -/

/-- The enumerated set of supported provider backends
(QUICKSTART.md, "Supported Providers"). -/
def SUPPORTED_PROVIDERS : List String := ["anthropic", "openai", "openrouter"]

/-- The fixed default provider selected by a bare secret
(QUICKSTART.md: "If no provider prefix, defaults to Anthropic"). -/
def DEFAULT_PROVIDER : String := "anthropic"

/-- Split a character list at its first colon: `some (before, after)`
when a colon occurs, `none` otherwise. -/
def splitAtColon : List Char → Option (List Char × List Char)
  | [] => none
  | c :: cs =>
    if c = ':' then some ([], cs)
    else
      match splitAtColon cs with
      | none => none
      | some (a, b) => some (c :: a, b)

/-- Modelled from the spec: backend credential parsing (server.py is
missing).  A credential of the form provider:secret selects the named
provider; a bare secret with no colon selects the fixed default
provider. -/
def parse_credential (s : String) : String × String :=
  match splitAtColon s.toList with
  | some (p, k) => (⟨p⟩, ⟨k⟩)
  | none => (DEFAULT_PROVIDER, s)

/-- From src/frontend/src/App.js, saveToken (also the revision embedded
in update.sh): the credential the dashboard submits to
/api/config/token is the selected provider, a colon, and the entered
key. -/
def formattedToken (selectedProvider openclawToken : String) : String :=
  selectedProvider ++ ":" ++ openclawToken

/-! ## Dashboard sendMessage (revision embedded in update.sh) -/

/-- A message of the dashboard's local message list. -/
structure DashMsg where
  role : String
  content : String
  timestamp : String
deriving DecidableEq, Repr

/-- The dashboard state read and written by sendMessage. -/
structure DashState where
  messages : List DashMsg
  inputMessage : String
  hasToken : Bool
  conversation : Option String
  agentId : String
deriving DecidableEq, Repr

/-- A POST request sendMessage issues to the backend conversation
store. -/
structure BackendPost where
  conversation_id : String
  role : String
  content : String
  agent_id : String
deriving DecidableEq, Repr

/-- Whitespace trimming at both ends of a character list (the semantics
of the JavaScript String.prototype.trim used by sendMessage). -/
def trimList (cs : List Char) : List Char :=
  ((cs.dropWhile Char.isWhitespace).reverse.dropWhile Char.isWhitespace).reverse

/-- Whitespace trimming of a string at both ends. -/
def strTrim (s : String) : String := ⟨trimList s.toList⟩

/-- The system warning appended when no API token is configured, from
the sendMessage revision embedded in update.sh. -/
def tokenWarningText : String :=
  "SYSTEM WARNING: No API token configured. Please click the TOKEN " ++
  "button to set up your AI provider to receive external responses."

/-- From update.sh (embedded App.js revision), sendMessage: returns the
updated dashboard state and the list of backend requests issued.  A
blank (after trim) input or a closed conversation is a no-op; without a
token the user message and a system warning are appended locally, the
input is cleared and nothing is sent; otherwise the trimmed message is
appended locally and posted to the conversation endpoint. -/
def sendMessage (st : DashState) (now : String) :
    DashState × List BackendPost :=
  if strTrim st.inputMessage = "" ∨ st.conversation = none then (st, [])
  else if st.hasToken = false then
    ({ st with
        messages := st.messages ++
          [⟨"user", st.inputMessage, now⟩, ⟨"system", tokenWarningText, now⟩],
        inputMessage := "" }, [])
  else
    ({ st with
        messages := st.messages ++ [⟨"user", strTrim st.inputMessage, now⟩],
        inputMessage := "" },
     [⟨st.conversation.getD "", "user", strTrim st.inputMessage, st.agentId⟩])

/-! ## Concrete test inputs used by the witnesses -/

/-- A provider oracle that requests one shell tool call on every
response (the adversarial input of the iteration-budget property). -/
def toolLoopProvider : Nat → ProviderResponse :=
  fun _ => ⟨"partial answer", [⟨"shell", [("command", "ls")]⟩], ⟨3, 4, 7⟩⟩

/-- A provider oracle that requests one shell tool call and then answers
directly on its second call. -/
def twoStepProvider : Nat → ProviderResponse :=
  fun n =>
    if n = 0 then ⟨"thinking", [⟨"shell", [("command", "echo hello")]⟩], ⟨10, 5, 15⟩⟩
    else ⟨"done", [], ⟨20, 7, 27⟩⟩

/-- A tool executor whose every execution succeeds. -/
def okExec : ToolCall → ExecOutcome := fun _ => .ok "hello"

/-- A tool executor whose every execution fails validation. -/
def failExec : ToolCall → ExecOutcome :=
  fun _ => .validationError "missing required field"

/-! ## Helper lemmas -/

/-- Path segments surviving normalization are plain names: a resolved
stack never retains "..", "." or an empty segment, so a successfully
resolved path always denotes a location inside the Workspace root. -/
theorem normSegs_no_escape :
    ∀ (segs stack : List String),
      (∀ s ∈ stack, s ≠ ".." ∧ s ≠ "." ∧ s ≠ "") →
      ∀ q, normSegs stack segs = some q →
      ∀ s ∈ q, s ≠ ".." ∧ s ≠ "." ∧ s ≠ "" := by
  intro segs
  induction segs with
  | nil =>
    intro stack hstack q hq s hs
    simp only [normSegs, Option.some.injEq] at hq
    subst hq
    exact hstack s (by simpa using hs)
  | cons seg rest ih =>
    intro stack hstack q hq s hs
    simp only [normSegs] at hq
    by_cases h1 : seg = "." ∨ seg = ""
    · rw [if_pos h1] at hq
      exact ih stack hstack q hq s hs
    · rw [if_neg h1] at hq
      by_cases h2 : seg = ".."
      · rw [if_pos h2] at hq
        cases stack with
        | nil => simp at hq
        | cons a stack' =>
          exact ih stack' (fun t ht => hstack t (List.mem_cons_of_mem a ht))
            q hq s hs
      · rw [if_neg h2] at hq
        refine ih (seg :: stack) ?_ q hq s hs
        intro t ht
        rcases List.mem_cons.mp ht with rfl | ht'
        · push_neg at h1
          exact ⟨h2, h1.1, h1.2⟩
        · exact hstack t ht'

/-- Repeated memory appends only extend the log: the starting content is
a prefix of the content after any sequence of appends. -/
theorem foldl_memAppend_extends :
    ∀ (xs : List String) (m : MemoryStore), m <+: xs.foldl memAppend m := by
  intro xs
  induction xs with
  | nil => intro m; exact List.prefix_refl m
  | cons x xs ih =>
    intro m
    exact List.IsPrefix.trans (List.prefix_append m [x]) (ih (memAppend m x))

/-! ## Claim theorems -/

/-- C1: every file-tool invocation whose path resolves, after
normalization of ".." segments, outside the agent's Workspace root
returns AccessDenied and performs no filesystem read or mutation
(write_file leaves the filesystem unchanged); the memory tool's fixed
path resolves inside the root, and every successfully resolved path
consists of plain segments, so no filesystem operation of the agent
resolves outside its Workspace root. -/
theorem C1_file_tools_path_confinement (fs : FS) (p : List String)
    (c : String) (h : resolvePath p = none) :
    read_file fs p = .accessDenied ∧
    write_file fs p c = (.accessDenied, fs) ∧
    list_files fs p = .accessDenied ∧
    resolvePath memoryPath = some memoryPath ∧
    (∀ p' q, resolvePath p' = some q →
      ∀ s ∈ q, s ≠ ".." ∧ s ≠ "." ∧ s ≠ "") := by
  refine ⟨?_, ?_, ?_, ?_, ?_⟩
  · simp [read_file, h]
  · simp [write_file, h]
  · simp [list_files, h]
  · rfl
  · intro p' q hq s hs
    exact normSegs_no_escape p' [] (by simp) q hq s hs

/-- Witness for C1 at the concrete escaping path ["..", "secret"]. -/
theorem C1_file_tools_path_confinement_witness :
    resolvePath ["..", "secret"] = none ∧
    read_file [] ["..", "secret"] = .accessDenied ∧
    write_file [] ["..", "secret"] "x" = (.accessDenied, []) ∧
    list_files [] ["..", "secret"] = .accessDenied := by
  have h : resolvePath ["..", "secret"] = none := by decide
  have hc := C1_file_tools_path_confinement [] ["..", "secret"] "x" h
  exact ⟨h, hc.1, hc.2.1, hc.2.2.1⟩

/-- C2: every command string containing a deny-listed destructive
pattern as a case-insensitive substring is answered with
DangerousCommandBlocked by the shell tool, and no child process is ever
spawned for it. -/
theorem C2_shell_deny_list (cmd pat : String)
    (hmem : pat ∈ DANGEROUS_PATTERNS)
    (hsub : subOccurs (lowerList pat.toList) (lowerList cmd.toList) = true) :
    shell cmd = .dangerousCommandBlocked ∧
    ∀ c, shell cmd ≠ .spawned c := by
  have hd : isDangerous cmd = true := List.any_eq_true.mpr ⟨pat, hmem, hsub⟩
  refine ⟨by simp [shell, hd], ?_⟩
  intro c hc
  simp [shell, hd] at hc

/-- Witness for C2 at the concrete mixed-case command
"sudo RM -RF /tmp" matching the deny-listed pattern "rm -rf". -/
theorem C2_shell_deny_list_witness :
    "rm -rf" ∈ DANGEROUS_PATTERNS ∧
    subOccurs (lowerList "rm -rf".toList) (lowerList "sudo RM -RF /tmp".toList)
      = true ∧
    shell "sudo RM -RF /tmp" = .dangerousCommandBlocked := by
  have hmem : "rm -rf" ∈ DANGEROUS_PATTERNS := by decide
  have hsub : subOccurs (lowerList "rm -rf".toList)
      (lowerList "sudo RM -RF /tmp".toList) = true := by decide
  exact ⟨hmem, hsub, (C2_shell_deny_list "sudo RM -RF /tmp" "rm -rf"
    hmem hsub).1⟩

/-- C5: appending x to a MemoryStore and reading back yields content
ending with x that still contains every prior entry in its original
order (the prior store is a prefix), and no further sequence of appends
ever removes, truncates or reorders previously appended content. -/
theorem C5_memory_append_only (m : MemoryStore) (x : String)
    (xs : List String) :
    memRead (memAppend m x) = m ++ [x] ∧
    [x] <:+ memRead (memAppend m x) ∧
    m <+: memRead (memAppend m x) ∧
    memRead (memAppend m x) <+: memRead (xs.foldl memAppend (memAppend m x)) :=
  ⟨rfl, ⟨m, rfl⟩, ⟨[x], rfl⟩, foldl_memAppend_extends xs (memAppend m x)⟩

/-- C7: whenever write_file(p, c) succeeds, a subsequent read_file(p)
returns exactly c. -/
theorem C7_write_read_roundtrip (fs : FS) (p : List String) (c : String)
    (h : (write_file fs p c).1 ≠ .accessDenied) :
    read_file (write_file fs p c).2 p = .ok c := by
  cases hr : resolvePath p with
  | none => exact absurd (by simp [write_file, hr]) h
  | some q => simp [write_file, read_file, hr, fsInsert, fsLookup]

/-- Witness for C7 at the concrete file test.txt with content
"Hello World". -/
theorem C7_write_read_roundtrip_witness :
    (write_file [] ["test.txt"] "Hello World").1 ≠ FileResult.accessDenied ∧
    read_file (write_file [] ["test.txt"] "Hello World").2 ["test.txt"]
      = .ok "Hello World" := by
  have h : (write_file [] ["test.txt"] "Hello World").1
      ≠ FileResult.accessDenied := by decide
  exact ⟨h, C7_write_read_roundtrip [] ["test.txt"] "Hello World" h⟩

/-! ## Loop lemmas -/

/-- The loop makes at most `fuel` further provider calls: the iteration
count of the result never exceeds the calls already made plus the
remaining budget. -/
theorem loopGo_iterations_le (provider : Nat → ProviderResponse)
    (exec : ToolCall → ExecOutcome) :
    ∀ (fuel i : Nat) (acc : Usage) (us : List Usage)
      (results : List ToolResult) (t : String),
      (loopGo provider exec fuel i acc us results t).iterations ≤ i + fuel := by
  intro fuel
  induction fuel with
  | zero => intro i acc us results t; simp [loopGo]
  | succ f ih =>
    intro i acc us results t
    simp only [loopGo]
    split
    · simp
    · have := ih (i + 1) (addUsage acc (provider i).usage)
        (us ++ [(provider i).usage])
        (results ++ execTools exec (provider i).tool_calls) (provider i).text
      omega

/-- When every provider response requests tool calls, the loop runs its
full budget and ends ABORTED with the iteration count advanced by the
whole budget. -/
theorem loopGo_all_tools (provider : Nat → ProviderResponse)
    (exec : ToolCall → ExecOutcome)
    (h : ∀ n, (provider n).tool_calls ≠ []) :
    ∀ (fuel i : Nat) (acc : Usage) (us : List Usage)
      (results : List ToolResult) (t : String),
      (loopGo provider exec fuel i acc us results t).aborted = true ∧
      (loopGo provider exec fuel i acc us results t).iterations = i + fuel := by
  intro fuel
  induction fuel with
  | zero => intro i acc us results t; simp [loopGo]
  | succ f ih =>
    intro i acc us results t
    simp only [loopGo]
    rw [if_neg (h i)]
    have := ih (i + 1) (addUsage acc (provider i).usage)
      (us ++ [(provider i).usage])
      (results ++ execTools exec (provider i).tool_calls) (provider i).text
    exact ⟨this.1, by omega⟩

/-- When every provider response requests tool calls and the budget is
positive, the content of the ABORTED result is the text of the last
provider response: the best available partial text. -/
theorem loopGo_all_tools_content (provider : Nat → ProviderResponse)
    (exec : ToolCall → ExecOutcome)
    (h : ∀ n, (provider n).tool_calls ≠ []) :
    ∀ (fuel i : Nat) (acc : Usage) (us : List Usage)
      (results : List ToolResult) (t : String), 0 < fuel →
      (loopGo provider exec fuel i acc us results t).content
        = (provider (i + fuel - 1)).text := by
  intro fuel
  induction fuel with
  | zero => intro i acc us results t hf; omega
  | succ f ih =>
    intro i acc us results t _
    simp only [loopGo]
    rw [if_neg (h i)]
    cases f with
    | zero => simp [loopGo]
    | succ f' =>
      have := ih (i + 1) (addUsage acc (provider i).usage)
        (us ++ [(provider i).usage])
        (results ++ execTools exec (provider i).tool_calls) (provider i).text
        (by omega)
      rw [this]
      have harg : i + 1 + (f' + 1) - 1 = i + (f' + 1 + 1) - 1 := by omega
      rw [harg]

/-- Accumulated usage counters equal the sums over the per-call usage
trace: if the accumulators match the trace so far, they match the final
trace. -/
theorem loopGo_usage_sums (provider : Nat → ProviderResponse)
    (exec : ToolCall → ExecOutcome) :
    ∀ (fuel i : Nat) (acc : Usage) (us : List Usage)
      (results : List ToolResult) (t : String),
      acc.prompt_tokens = (us.map Usage.prompt_tokens).sum →
      acc.completion_tokens = (us.map Usage.completion_tokens).sum →
      acc.total_tokens
        = (us.map (fun u => u.prompt_tokens + u.completion_tokens)).sum →
      (loopGo provider exec fuel i acc us results t).usage.prompt_tokens
        = ((loopGo provider exec fuel i acc us results t).per_call_usage.map
            Usage.prompt_tokens).sum ∧
      (loopGo provider exec fuel i acc us results t).usage.completion_tokens
        = ((loopGo provider exec fuel i acc us results t).per_call_usage.map
            Usage.completion_tokens).sum ∧
      (loopGo provider exec fuel i acc us results t).usage.total_tokens
        = ((loopGo provider exec fuel i acc us results t).per_call_usage.map
            (fun u => u.prompt_tokens + u.completion_tokens)).sum := by
  intro fuel
  induction fuel with
  | zero =>
    intro i acc us results t h1 h2 h3
    exact ⟨h1, h2, h3⟩
  | succ f ih =>
    intro i acc us results t h1 h2 h3
    simp only [loopGo]
    split
    · refine ⟨?_, ?_, ?_⟩ <;>
        simp [addUsage, h1, h2, h3]
    · exact ih (i + 1) (addUsage acc (provider i).usage)
        (us ++ [(provider i).usage])
        (results ++ execTools exec (provider i).tool_calls) (provider i).text
        (by simp [addUsage, h1]) (by simp [addUsage, h2])
        (by simp [addUsage, h3])

/-- The loop's control flow and accounting — content, usage, per-call
usage, iteration count and aborted flag — are independent of the tool
executor and of the accumulated tool results: a tool execution failure
never alters them. -/
theorem loopGo_control_indep (provider : Nat → ProviderResponse)
    (exec exec' : ToolCall → ExecOutcome) :
    ∀ (fuel i : Nat) (acc : Usage) (us : List Usage)
      (r1 r2 : List ToolResult) (t : String),
      (loopGo provider exec fuel i acc us r1 t).aborted
        = (loopGo provider exec' fuel i acc us r2 t).aborted ∧
      (loopGo provider exec fuel i acc us r1 t).iterations
        = (loopGo provider exec' fuel i acc us r2 t).iterations ∧
      (loopGo provider exec fuel i acc us r1 t).content
        = (loopGo provider exec' fuel i acc us r2 t).content ∧
      (loopGo provider exec fuel i acc us r1 t).usage
        = (loopGo provider exec' fuel i acc us r2 t).usage := by
  intro fuel
  induction fuel with
  | zero => intro i acc us r1 r2 t; exact ⟨rfl, rfl, rfl, rfl⟩
  | succ f ih =>
    intro i acc us r1 r2 t
    simp only [loopGo]
    split
    · exact ⟨rfl, rfl, rfl, rfl⟩
    · exact ih (i + 1) (addUsage acc (provider i).usage)
        (us ++ [(provider i).usage])
        (r1 ++ execTools exec (provider i).tool_calls)
        (r2 ++ execTools exec' (provider i).tool_calls) (provider i).text

/-- Splitting a sum of per-call token totals into the prompt and
completion sums. -/
theorem sum_map_add_split (us : List Usage) :
    (us.map (fun u => u.prompt_tokens + u.completion_tokens)).sum
      = (us.map Usage.prompt_tokens).sum
        + (us.map Usage.completion_tokens).sum := by
  induction us with
  | nil => rfl
  | cons u us ih => simp [ih]; omega

/-- Prefix sums of a list of naturals are monotone. -/
theorem sum_take_le : ∀ (xs : List Nat) (k l : Nat), k ≤ l →
    (xs.take k).sum ≤ (xs.take l).sum := by
  intro xs
  induction xs with
  | nil => intro k l _; simp
  | cons x xs ih =>
    intro k l hkl
    cases k with
    | zero => simp
    | succ k' =>
      cases l with
      | zero => omega
      | succ l' =>
        rw [List.take_succ_cons, List.take_succ_cons, List.sum_cons,
          List.sum_cons]
        exact Nat.add_le_add_left (ih k' l' (by omega)) x

/-- The running token total of a chat invocation is monotonically
non-decreasing in the number of provider calls accounted. -/
theorem runningTotal_mono (us : List Usage) (k l : Nat) (h : k ≤ l) :
    runningTotal us k ≤ runningTotal us l := by
  unfold runningTotal
  rw [List.map_take, List.map_take]
  exact sum_take_le _ k l h

/-- C3: every chat() invocation makes at most max_iterations provider
calls (the default budget is 10) even when every provider response
requests another tool call; in that adversarial case the loop ends in
the ABORTED state with the explicit iteration-limit flag set, the
iteration count equal to the budget, and the best available partial
text — the last provider response's text — as content. -/
theorem C3_iteration_budget (provider : Nat → ProviderResponse)
    (exec : ToolCall → ExecOutcome) (max_iterations : Nat) :
    default_max_iterations = 10 ∧
    (chat provider exec max_iterations).iterations ≤ max_iterations ∧
    ((∀ n, (provider n).tool_calls ≠ []) →
      (chat provider exec max_iterations).aborted = true ∧
      (chat provider exec max_iterations).iterations = max_iterations ∧
      (0 < max_iterations →
        (chat provider exec max_iterations).content
          = (provider (max_iterations - 1)).text)) := by
  refine ⟨rfl, ?_, ?_⟩
  · have := loopGo_iterations_le provider exec max_iterations 0 ⟨0, 0, 0⟩
      [] [] ""
    simpa [chat] using this
  · intro h
    have h1 := loopGo_all_tools provider exec h max_iterations 0 ⟨0, 0, 0⟩
      [] [] ""
    refine ⟨h1.1, by simpa [chat] using h1.2, fun hpos => ?_⟩
    have h2 := loopGo_all_tools_content provider exec h max_iterations 0
      ⟨0, 0, 0⟩ [] [] "" hpos
    simpa [chat] using h2

/-- Witness for C3: a provider that always requests a tool call, run
with budget 2, aborts after exactly 2 provider calls with the last
partial text. -/
theorem C3_iteration_budget_witness :
    (∀ n, (toolLoopProvider n).tool_calls ≠ []) ∧
    (chat toolLoopProvider okExec 2).aborted = true ∧
    (chat toolLoopProvider okExec 2).iterations = 2 ∧
    (chat toolLoopProvider okExec 2).content = "partial answer" := by
  have h : ∀ n, (toolLoopProvider n).tool_calls ≠ [] := by
    intro n; simp [toolLoopProvider]
  have hc := C3_iteration_budget toolLoopProvider okExec 2
  have h3 := hc.2.2 h
  refine ⟨h, h3.1, h3.2.1, ?_⟩
  have := h3.2.2 (by omega)
  simpa [toolLoopProvider] using this

/-- C4: for every chat() invocation, the returned usage counters are
the exact sums of the per-call usage fields reported by the provider
across all iterations — total_tokens is the sum of the reported
prompt_tokens + completion_tokens, never an independent estimate — and
the running token total is monotonically non-decreasing within the
call. -/
theorem C4_usage_exact_sums (provider : Nat → ProviderResponse)
    (exec : ToolCall → ExecOutcome) (max_iterations : Nat) :
    (chat provider exec max_iterations).usage.prompt_tokens
      = ((chat provider exec max_iterations).per_call_usage.map
          Usage.prompt_tokens).sum ∧
    (chat provider exec max_iterations).usage.completion_tokens
      = ((chat provider exec max_iterations).per_call_usage.map
          Usage.completion_tokens).sum ∧
    (chat provider exec max_iterations).usage.total_tokens
      = ((chat provider exec max_iterations).per_call_usage.map
          (fun u => u.prompt_tokens + u.completion_tokens)).sum ∧
    (chat provider exec max_iterations).usage.total_tokens
      = (chat provider exec max_iterations).usage.prompt_tokens
        + (chat provider exec max_iterations).usage.completion_tokens ∧
    (∀ k l, k ≤ l →
      runningTotal (chat provider exec max_iterations).per_call_usage k
        ≤ runningTotal (chat provider exec max_iterations).per_call_usage l) := by
  have h := loopGo_usage_sums provider exec max_iterations 0 ⟨0, 0, 0⟩
    [] [] "" rfl rfl rfl
  refine ⟨h.1, h.2.1, h.2.2, ?_,
    fun k l hkl => runningTotal_mono _ k l hkl⟩
  simp only [chat]
  rw [h.2.2, h.1, h.2.1, sum_map_add_split]

/-- Witness for C4: a two-step conversation whose provider reports
usage (10, 5) and (20, 7); the counters are the exact sums and the
running total is monotone from call 0 to call 1. -/
theorem C4_usage_exact_sums_witness :
    (chat twoStepProvider okExec 10).usage.prompt_tokens = 30 ∧
    (chat twoStepProvider okExec 10).usage.completion_tokens = 12 ∧
    (chat twoStepProvider okExec 10).usage.total_tokens = 42 ∧
    runningTotal (chat twoStepProvider okExec 10).per_call_usage 0
      ≤ runningTotal (chat twoStepProvider okExec 10).per_call_usage 1 := by
  refine ⟨by decide, by decide, by decide, ?_⟩
  exact (C4_usage_exact_sums twoStepProvider okExec 10).2.2.2.2 0 1
    (by omega)

/-- C6: every ToolCall requested by the provider produces exactly one
corresponding ToolResult — same tool name and arguments, with the
result text or the error description as content — never omitted; and a
tool execution failure is not fatal: the loop's aborted flag, iteration
count, content and usage are identical under any two tool executors, so
the loop continues and only the fed-back ToolResult text differs. -/
theorem C6_tool_results_always_produced (provider : Nat → ProviderResponse)
    (exec exec' : ToolCall → ExecOutcome) (max_iterations : Nat)
    (calls : List ToolCall) (i : Nat) (h : i < calls.length)
    (h2 : i < (execTools exec calls).length) :
    (execTools exec calls).length = calls.length ∧
    ((execTools exec calls).get ⟨i, h2⟩).tool = (calls.get ⟨i, h⟩).name ∧
    ((execTools exec calls).get ⟨i, h2⟩).args
      = (calls.get ⟨i, h⟩).arguments ∧
    ((execTools exec calls).get ⟨i, h2⟩).result
      = outcomeText (exec (calls.get ⟨i, h⟩)) ∧
    (chat provider exec max_iterations).aborted
      = (chat provider exec' max_iterations).aborted ∧
    (chat provider exec max_iterations).iterations
      = (chat provider exec' max_iterations).iterations ∧
    (chat provider exec max_iterations).content
      = (chat provider exec' max_iterations).content ∧
    (chat provider exec max_iterations).usage
      = (chat provider exec' max_iterations).usage := by
  have hc := loopGo_control_indep provider exec exec' max_iterations 0
    ⟨0, 0, 0⟩ [] [] [] ""
  refine ⟨?_, ?_, ?_, ?_, hc.1, hc.2.1, hc.2.2.1, hc.2.2.2⟩ <;>
    simp [execTools, List.get_eq_getElem, List.getElem_map]

/-- Witness for C6: a validation-failing tool call still yields its
ToolResult carrying the error description, and the loop control flow
matches the one of an always-succeeding executor. -/
theorem C6_tool_results_always_produced_witness :
    (execTools failExec [⟨"write_file", [("path", "a.txt")]⟩]).length = 1 ∧
    (execTools failExec [⟨"write_file", [("path", "a.txt")]⟩]).map
        ToolResult.result
      = ["ValidationError: missing required field"] ∧
    (chat toolLoopProvider failExec 3).aborted
      = (chat toolLoopProvider okExec 3).aborted ∧
    (chat toolLoopProvider failExec 3).iterations
      = (chat toolLoopProvider okExec 3).iterations := by
  have h : (0 : Nat)
      < ([⟨"write_file", [("path", "a.txt")]⟩] : List ToolCall).length := by
    decide
  have h2 : (0 : Nat)
      < (execTools failExec [⟨"write_file", [("path", "a.txt")]⟩]).length := by
    simp [execTools]
  have hc := C6_tool_results_always_produced toolLoopProvider failExec okExec
    3 [⟨"write_file", [("path", "a.txt")]⟩] 0 h h2
  exact ⟨hc.1, by simp [execTools, failExec, outcomeText],
    hc.2.2.2.2.1, hc.2.2.2.2.2.1⟩

/-! ## Credential and dashboard lemmas -/

/-- Splitting at the first colon of a string made of a colon-free part,
a colon, and a remainder yields exactly those two parts. -/
theorem splitAtColon_append (k : List Char) :
    ∀ p : List Char, (∀ c ∈ p, c ≠ ':') →
      splitAtColon (p ++ ':' :: k) = some (p, k) := by
  intro p
  induction p with
  | nil => intro _; simp [splitAtColon]
  | cons c cs ih =>
    intro h
    have hc : c ≠ ':' := h c (List.mem_cons_self c cs)
    simp only [List.cons_append, splitAtColon]
    rw [if_neg hc]
    simp only [List.append_eq]
    rw [ih (fun d hd => h d (List.mem_cons_of_mem c hd))]

/-- A colon-free string has no first colon to split at. -/
theorem splitAtColon_none : ∀ s : List Char, (∀ c ∈ s, c ≠ ':') →
    splitAtColon s = none := by
  intro s
  induction s with
  | nil => intro _; rfl
  | cons c cs ih =>
    intro h
    simp only [splitAtColon]
    rw [if_neg (h c (List.mem_cons_self c cs)),
      ih (fun d hd => h d (List.mem_cons_of_mem c hd))]

/-- Character decomposition of a provider-prefixed credential. -/
theorem toList_append_colon (a b : String) :
    (a ++ ":" ++ b).toList = a.toList ++ ':' :: b.toList := by
  simp [String.toList, String.data_append]

/-- C8: a credential of the form provider:secret selects the named
provider with the remainder as secret; a bare secret with no provider
prefix selects the fixed default provider, Anthropic; and the
dashboard's saveToken always submits a credential already prefixed with
the selected provider, so parsing it recovers exactly that provider and
key. -/
theorem C8_credential_provider_selection (prov secret : String)
    (hp : ∀ c ∈ prov.toList, c ≠ ':')
    (hs : ∀ c ∈ secret.toList, c ≠ ':') :
    formattedToken prov secret = prov ++ ":" ++ secret ∧
    parse_credential (formattedToken prov secret) = (prov, secret) ∧
    parse_credential secret = (DEFAULT_PROVIDER, secret) ∧
    DEFAULT_PROVIDER = "anthropic" := by
  refine ⟨rfl, ?_, ?_, rfl⟩
  · show parse_credential (prov ++ ":" ++ secret) = (prov, secret)
    unfold parse_credential
    rw [toList_append_colon, splitAtColon_append _ _ hp]
    rfl
  · unfold parse_credential
    rw [splitAtColon_none _ hs]

/-- Witness for C8 at the supported provider "anthropic" and a concrete
bare key. -/
theorem C8_credential_provider_selection_witness :
    "anthropic" ∈ SUPPORTED_PROVIDERS ∧
    parse_credential (formattedToken "anthropic" "sk-ant-api03-k1")
      = ("anthropic", "sk-ant-api03-k1") ∧
    parse_credential "sk-ant-api03-k1" = ("anthropic", "sk-ant-api03-k1") := by
  have hp : ∀ c ∈ "anthropic".toList, c ≠ ':' := by decide
  have hs : ∀ c ∈ "sk-ant-api03-k1".toList, c ≠ ':' := by decide
  have hc := C8_credential_provider_selection "anthropic" "sk-ant-api03-k1"
    hp hs
  exact ⟨by decide, hc.2.1, hc.2.2.1⟩

/-- C9: the context builder is a pure function of AgentConfig,
Workspace contents and current time, assembling the blocks in the fixed
order identity, timestamp/runtime facts, tool catalog, memory excerpt,
overrides; two builds over identical Workspace state differ at most in
the timestamp block, and two builds at the same instant produce
identical system prompt strings. -/
theorem C9_context_builder_deterministic (cfg : AgentConfig)
    (ws : WorkspaceView) (t1 t2 : Nat) :
    build_context cfg ws t1
      = String.intercalate "\n\n"
          [identityBlock cfg ws, timeBlock cfg t1, toolCatalogBlock cfg,
           memoryBlock ws, overridesBlock ws] ∧
    (contextBlocks cfg ws t1).eraseIdx 1
      = (contextBlocks cfg ws t2).eraseIdx 1 ∧
    (t1 = t2 → build_context cfg ws t1 = build_context cfg ws t2) :=
  ⟨rfl, rfl, fun h => by rw [h]⟩

/-- Witness for C9 at a concrete configuration and workspace, same
instant. -/
theorem C9_context_builder_deterministic_witness :
    (5 : Nat) = 5 ∧
    build_context
        ⟨"anthropic", "claude-3-5-sonnet-20241022", "/ws", 10, ["shell"]⟩
        ⟨none, some "soul", none, none, ["note"]⟩ 5
      = build_context
          ⟨"anthropic", "claude-3-5-sonnet-20241022", "/ws", 10, ["shell"]⟩
          ⟨none, some "soul", none, none, ["note"]⟩ 5 :=
  ⟨rfl,
    (C9_context_builder_deterministic
      ⟨"anthropic", "claude-3-5-sonnet-20241022", "/ws", 10, ["shell"]⟩
      ⟨none, some "soul", none, none, ["note"]⟩ 5 5).2.2 rfl⟩

/-- C10: in the sendMessage of the dashboard revision embedded in
update.sh, a non-blank input with an open conversation but no API token
appends exactly two messages to the local list — the user's message
followed by the system warning — clears the input field, and issues no
backend request, leaving the stored conversation unchanged. -/
theorem C10_sendMessage_no_token (st : DashState) (now cid : String)
    (h1 : strTrim st.inputMessage ≠ "")
    (h2 : st.conversation = some cid)
    (h3 : st.hasToken = false) :
    (sendMessage st now).1.messages
      = st.messages ++
        [⟨"user", st.inputMessage, now⟩,
         ⟨"system", tokenWarningText, now⟩] ∧
    (sendMessage st now).1.inputMessage = "" ∧
    (sendMessage st now).2 = [] := by
  have hcond : ¬ (strTrim st.inputMessage = "" ∨ st.conversation = none) := by
    push_neg
    exact ⟨h1, by rw [h2]; simp⟩
  unfold sendMessage
  rw [if_neg hcond, if_pos h3]
  exact ⟨rfl, rfl, rfl⟩

/-- Witness for C10 at a concrete dashboard state with input
"run: ls", an open conversation and no token. -/
theorem C10_sendMessage_no_token_witness :
    (sendMessage ⟨[], "run: ls", false, some "conv-1", "agent-1"⟩ "t0").1.messages
      = [⟨"user", "run: ls", "t0"⟩, ⟨"system", tokenWarningText, "t0"⟩] ∧
    (sendMessage ⟨[], "run: ls", false, some "conv-1", "agent-1"⟩ "t0").1.inputMessage
      = "" ∧
    (sendMessage ⟨[], "run: ls", false, some "conv-1", "agent-1"⟩ "t0").2
      = [] := by
  have h1 : strTrim (DashState.inputMessage
      ⟨[], "run: ls", false, some "conv-1", "agent-1"⟩) ≠ "" := by decide
  have hc := C10_sendMessage_no_token
    ⟨[], "run: ls", false, some "conv-1", "agent-1"⟩ "t0" "conv-1" h1 rfl rfl
  exact ⟨hc.1, hc.2.1, hc.2.2⟩

end PicoClaw
